import Mathlib

/-!
Verification development for the comment-moderation pipeline in `modai.py`.

The embedding models the core pipeline (spec sections 4.2-4.5):
- `json_loads` models Python's `json.loads` on response bodies, restricted to
  JSON values whose numbers are integers (fractional/exponent number forms and
  the nonstandard NaN/Infinity extensions are outside the model; no claim
  involves them).  It returns `none` where Python raises `json.JSONDecodeError`.
- `call_llama_moderation` models the response-processing logic of the function
  of the same name (lines 73-91): the network transport is outside the model,
  so the function takes the already-extracted message `content` string, and
  `none` models the `return None` taken on any caught exception (the code's
  `Failure`).
- `process_comments` / `evaluateComment` model lines 93-131.  The lexical
  filter `profanity.contains_profanity` is an external library and is passed
  as an oracle `pf : String → Bool`; the remote classifier outcome per comment
  text is passed as `client : String → Option JValue` (`none` = Failure),
  matching the spec's stubbed-client formulations.  Python exceptions escaping
  the per-comment body are modelled by `Except.error`.
- `generate_report` models lines 133-161 up to its computed values (printing
  is I/O): the offensive filter, the ratio `len(offensive)/len(analyzed_df)`
  (raising `ZeroDivisionError` when the frame is empty), and the top-5
  selection `offensive.sort_values("severity", ascending=False).head(5)`.
  pandas' `nargsort` sorts ascending and reverses the indexer for
  `ascending=False`; for the small frames all claims use, numpy's quicksort is
  an insertion sort, hence stable, so the selection is modelled as a stable
  ascending sort by (severity, original index) followed by reversal.
-/

/-- A Python value as produced by `json.loads`: `null`, booleans, (integer)
numbers, strings, arrays and objects.  Objects are association lists in source
order; duplicate keys keep all pairs, and every consumer below either tests
membership or folds left-to-right, so the last pair wins, matching `dict`. -/
inductive JValue where
  | null : JValue
  | b : Bool → JValue
  | i : Int → JValue
  | s : String → JValue
  | arr : List JValue → JValue
  | obj : List (String × JValue) → JValue

/-- JSON whitespace skipping (space, tab, newline, carriage return). -/
def skipWs : List Char → List Char
  | c :: t => if c = ' ' ∨ c = '\t' ∨ c = '\n' ∨ c = '\r' then skipWs t else c :: t
  | [] => []

/-- Hexadecimal digit value, for `\u` escapes. -/
def hexVal (c : Char) : Option Nat :=
  if '0' ≤ c ∧ c ≤ '9' then some (c.toNat - '0'.toNat)
  else if 'a' ≤ c ∧ c ≤ 'f' then some (c.toNat - 'a'.toNat + 10)
  else if 'A' ≤ c ∧ c ≤ 'F' then some (c.toNat - 'A'.toNat + 10)
  else none

/-- Body of a JSON string literal after the opening quote: returns the decoded
characters and the rest of the input after the closing quote.  Unescaped
control characters and invalid escapes are errors, as in Python's strict mode. -/
def parseStr : List Char → Option (List Char × List Char)
  | [] => none
  | '"' :: t => some ([], t)
  | '\\' :: e :: t =>
    if e = '"' then (parseStr t).map (fun p => ('"' :: p.1, p.2))
    else if e = '\\' then (parseStr t).map (fun p => ('\\' :: p.1, p.2))
    else if e = '/' then (parseStr t).map (fun p => ('/' :: p.1, p.2))
    else if e = 'n' then (parseStr t).map (fun p => ('\n' :: p.1, p.2))
    else if e = 't' then (parseStr t).map (fun p => ('\t' :: p.1, p.2))
    else if e = 'r' then (parseStr t).map (fun p => ('\r' :: p.1, p.2))
    else if e = 'b' then (parseStr t).map (fun p => (Char.ofNat 8 :: p.1, p.2))
    else if e = 'f' then (parseStr t).map (fun p => (Char.ofNat 12 :: p.1, p.2))
    else if e = 'u' then
      match t with
      | h1 :: h2 :: h3 :: h4 :: t2 =>
        match hexVal h1, hexVal h2, hexVal h3, hexVal h4 with
        | some a, some b, some c, some d =>
          (parseStr t2).map (fun p => (Char.ofNat (((a * 16 + b) * 16 + c) * 16 + d) :: p.1, p.2))
        | _, _, _, _ => none
      | _ => none
    else none
  | c :: t => if c.toNat < 32 then none else (parseStr t).map (fun p => (c :: p.1, p.2))

/-- Numeric value of a digit string. -/
def natOfDigits (ds : List Char) : Nat :=
  ds.foldl (fun a c => a * 10 + (c.toNat - 48)) 0

/-- A JSON number: optional minus sign, digits without a superfluous leading
zero.  A following `.`, `e` or `E` would start a fractional/exponent form,
which is outside the model (see module comment), so it is rejected. -/
def parseNum (s : List Char) : Option (JValue × List Char) :=
  let (neg, s1) := match s with
    | '-' :: t => (true, t)
    | _ => (false, s)
  let ds := s1.takeWhile Char.isDigit
  let rest := s1.dropWhile Char.isDigit
  if ds = [] then none
  else if 1 < ds.length ∧ ds.head? = some '0' then none
  else match rest with
    | '.' :: _ => none
    | 'e' :: _ => none
    | 'E' :: _ => none
    | _ => some (.i (if neg then -(natOfDigits ds : Int) else (natOfDigits ds : Int)), rest)

mutual

/-- A JSON value (fuelled recursive-descent; the fuel is sized off the input
length at the top entry and cannot run out for inputs it is given). -/
def parseValue : Nat → List Char → Option (JValue × List Char)
  | 0, _ => none
  | fuel + 1, s =>
    match skipWs s with
    | 'n' :: 'u' :: 'l' :: 'l' :: t => some (.null, t)
    | 't' :: 'r' :: 'u' :: 'e' :: t => some (.b true, t)
    | 'f' :: 'a' :: 'l' :: 's' :: 'e' :: t => some (.b false, t)
    | '"' :: t => (parseStr t).map (fun p => (.s (String.mk p.1), p.2))
    | '[' :: t =>
      (match skipWs t with
       | ']' :: t2 => some (.arr [], t2)
       | _ => (parseElems fuel t).map (fun p => (.arr p.1, p.2)))
    | '{' :: t =>
      (match skipWs t with
       | '}' :: t2 => some (.obj [], t2)
       | _ => (parseMembers fuel t).map (fun p => (.obj p.1, p.2)))
    | other => parseNum other

/-- One or more comma-separated array elements, then the closing bracket. -/
def parseElems : Nat → List Char → Option (List JValue × List Char)
  | 0, _ => none
  | fuel + 1, s =>
    match parseValue fuel s with
    | none => none
    | some (v, t) =>
      match skipWs t with
      | ',' :: t2 => (parseElems fuel t2).map (fun p => (v :: p.1, p.2))
      | ']' :: t2 => some ([v], t2)
      | _ => none

/-- One object member: string key, colon, value. -/
def parseMember : Nat → List Char → Option ((String × JValue) × List Char)
  | 0, _ => none
  | fuel + 1, s =>
    match skipWs s with
    | '"' :: t =>
      (match parseStr t with
       | none => none
       | some (k, t1) =>
         match skipWs t1 with
         | ':' :: t2 => (parseValue fuel t2).map (fun p => ((String.mk k, p.1), p.2))
         | _ => none)
    | _ => none

/-- One or more comma-separated object members, then the closing brace. -/
def parseMembers : Nat → List Char → Option (List (String × JValue) × List Char)
  | 0, _ => none
  | fuel + 1, s =>
    match parseMember fuel s with
    | none => none
    | some (kv, t) =>
      match skipWs t with
      | ',' :: t2 => (parseMembers fuel t2).map (fun p => (kv :: p.1, p.2))
      | '}' :: t2 => some ([kv], t2)
      | _ => none

end

/-- Model of Python's `json.loads` on a string: one JSON value, possibly
surrounded by whitespace, consuming the entire input.  `none` models a raised
`json.JSONDecodeError` (the only exception `json.loads` raises on `str`
input). -/
def json_loads (content : String) : Option JValue :=
  match parseValue (content.data.length + 2) content.data with
  | some (v, rest) => if skipWs rest = [] then some v else none
  | none => none

/-- Python `str.find(c)`: index of the first occurrence, modelled as `Option`
(`none` for the code's `-1`). -/
def findChar : List Char → Char → Option Nat
  | [], _ => none
  | c :: t, x => if c = x then some 0 else (findChar t x).map (· + 1)

/-- Python `str.rfind(c)`: index of the last occurrence. -/
def rfindChar (s : List Char) (x : Char) : Option Nat :=
  (findChar s.reverse x).map (fun i => s.length - 1 - i)

/-- Python slice `s[a:b]` for nonnegative bounds. -/
def pySlice (s : List Char) (a b : Nat) : List Char :=
  (s.take b).drop a

/-- Python substring containment `pat in s`. -/
def strContains (pat : List Char) (s : List Char) : Bool :=
  s.tails.any (fun t => pat.isPrefixOf t)

/-- Python `field in result` for a string `field`: key membership for a dict,
substring test for a string, element equality for a list; other values are not
iterable, raising `TypeError` (`.error`). -/
def pyInStr (field : String) : JValue → Except String Bool
  | .obj kvs => .ok (kvs.any (fun kv => kv.1 = field))
  | .s str => .ok (strContains field.data str.data)
  | .arr l => .ok (l.any (fun v => match v with | .s t => t = field | _ => false))
  | _ => .error "TypeError: argument is not iterable"

/-- The `required_fields` list of line 75. -/
def REQUIRED_FIELDS : List String :=
  ["is_offensive", "offense_type", "severity", "explanation"]

/-- `all(field in result for field in required_fields)` (line 76):
short-circuits on the first missing field, propagates a `TypeError` from
`in`. -/
def checkRequired (v : JValue) : Except String Bool :=
  REQUIRED_FIELDS.foldl
    (fun acc f =>
      match acc with
      | .error e => .error e
      | .ok false => .ok false
      | .ok true => pyInStr f v)
    (.ok true)

/-- Response processing of `call_llama_moderation` (lines 73-91), given the
extracted message `content`.  Returns `some` parsed value where the code
returns a result, `none` where it returns `None` (its `Failure`):
- direct parse succeeds: the required-field check runs; a missing field raises
  `ValueError`, a non-iterable result raises `TypeError`, both caught by the
  outer `except Exception` handler, which returns `None`;
- direct parse raises `JSONDecodeError`: the fallback extracts the substring
  between the first `{` and the last `}` and re-parses; any exception there
  (failed re-parse, or no braces) again reaches the outer handler.  Note that
  the fallback path performs no required-field check. -/
def call_llama_moderation (content : String) : Option JValue :=
  match json_loads content with
  | some result =>
    match checkRequired result with
    | .ok true => some result
    | _ => none
  | none =>
    match findChar content.data '{', rfindChar content.data '}' with
    | some a, some e => json_loads (String.mk (pySlice content.data a (e + 1)))
    | _, _ => none

/-- One input row (spec `Comment`): `comment_id`, `username`, `comment_text`.
The id and username cells are opaque values; the text must be a string for
`profanity.contains_profanity` and the prompt, so it is typed as one
(non-string text cells are outside the model). -/
structure Comment where
  comment_id : JValue
  username : JValue
  comment_text : String

/-- The per-comment `result` dict of lines 100-108 viewed at its seven known
keys (spec `ModerationRecord`).  Values are dynamic, as in Python: a remote
result can place any JSON value in any field.  Keys other than these seven
only add extra DataFrame columns and are outside the record model. -/
structure ModerationRecord where
  comment_id : JValue
  username : JValue
  comment_text : JValue
  is_offensive : JValue
  offense_type : JValue
  severity : JValue
  explanation : JValue

/-- The initial dict of lines 100-108. -/
def initRecord (c : Comment) : ModerationRecord :=
  { comment_id := c.comment_id
    username := c.username
    comment_text := .s c.comment_text
    is_offensive := .b false
    offense_type := .null
    severity := .i 0
    explanation := .s "Pending analysis" }

/-- Assigning one key of the `result` dict: a key matching a known field
overwrites it; any other key is an extra column, outside the record model. -/
def setField (r : ModerationRecord) (k : String) (v : JValue) : ModerationRecord :=
  if k = "comment_id" then { r with comment_id := v }
  else if k = "username" then { r with username := v }
  else if k = "comment_text" then { r with comment_text := v }
  else if k = "is_offensive" then { r with is_offensive := v }
  else if k = "offense_type" then { r with offense_type := v }
  else if k = "severity" then { r with severity := v }
  else if k = "explanation" then { r with explanation := v }
  else r

/-- `result.update(d)` for a dict argument: assigns every pair in iteration
order (so with duplicate keys in the association list the last pair wins,
as for a parsed `dict`). -/
def updObj (r : ModerationRecord) (kvs : List (String × JValue)) : ModerationRecord :=
  kvs.foldl (fun acc kv => setField acc kv.1 kv.2) r

/-- One element of a key/value sequence passed to `dict.update`: a 2-element
list is a pair; a 2-character string is a pair of its characters; any other
list or string length is a `ValueError`; non-sequences are a `TypeError`. -/
def pairOfElem : JValue → Except String (JValue × JValue)
  | .arr [k, v] => .ok (k, v)
  | .arr _ => .error "ValueError: update sequence element has wrong length"
  | .s str =>
    match str.data with
    | [a, b] => .ok (.s (String.mk [a]), .s (String.mk [b]))
    | _ => .error "ValueError: update sequence element has wrong length"
  | _ => .error "TypeError: cannot convert update sequence element"

/-- `result.update(l)` for a list argument: each element must convert to a
key/value pair; list/dict keys are unhashable (`TypeError`); a non-string
hashable key only adds an extra column. -/
def updSeq (r : ModerationRecord) : List JValue → Except String ModerationRecord
  | [] => .ok r
  | e :: rest =>
    match pairOfElem e with
    | .error msg => .error msg
    | .ok (k, v) =>
      match k with
      | .arr _ => .error "TypeError: unhashable key"
      | .obj _ => .error "TypeError: unhashable key"
      | .s ks => updSeq (setField r ks v) rest
      | _ => updSeq r rest

/-- `result.update(llama_result)` (line 120) over the possible dynamic types
of `llama_result`: dicts and pair sequences update; anything else raises. -/
def pyUpdate (r : ModerationRecord) : JValue → Except String ModerationRecord
  | .obj kvs => .ok (updObj r kvs)
  | .arr l => updSeq r l
  | _ => .error "TypeError: update argument is not iterable"

/-- Python truthiness of `if llama_result:` on a parsed JSON value. -/
def pyTruthy : JValue → Bool
  | .null => false
  | .b bo => bo
  | .i n => n ≠ 0
  | .s str => str ≠ ""
  | .arr l => !l.isEmpty
  | .obj kvs => !kvs.isEmpty

/-- Python `result["severity"] < min_severity` (line 126): defined for ints
and bools (`bool` is an `int` subclass); any other type raises `TypeError`.
(Float severities cannot arise: the number model is integral.) -/
def pyLtInt : JValue → Int → Except String Bool
  | .i n, m => .ok (decide (n < m))
  | .b bo, m => .ok (decide ((if bo then (1 : Int) else 0) < m))
  | _, _ => .error "TypeError: unorderable types in severity comparison"

/-- Lines 99-123 of `process_comments`, producing the pre-gate record for one
row: local profanity short-circuit, else the remote client; a falsy client
outcome (its `None` failure marker, but also any falsy parsed value) sets
`explanation = "Analysis failed"`; a truthy one is `dict.update`d in. -/
def preRecord (pf : String → Bool) (client : String → Option JValue)
    (c : Comment) : Except String ModerationRecord :=
  let r := initRecord c
  if pf c.comment_text then
    .ok { r with
          is_offensive := .b true
          offense_type := .s "profanity"
          severity := .i 5
          explanation := .s "Detected by local profanity filter" }
  else
    match client c.comment_text with
    | some v =>
      if pyTruthy v then pyUpdate r v
      else .ok { r with explanation := .s "Analysis failed" }
    | none => .ok { r with explanation := .s "Analysis failed" }

/-- The severity threshold gate of lines 125-127. -/
def applyGate (r : ModerationRecord) (min_severity : Int) : Except String ModerationRecord :=
  match pyLtInt r.severity min_severity with
  | .error msg => .error msg
  | .ok true => .ok { r with is_offensive := .b false }
  | .ok false => .ok r

/-- The whole loop body of lines 99-129 for one row (spec
`evaluate(comment, min_severity)`). -/
def evaluateComment (pf : String → Bool) (client : String → Option JValue)
    (c : Comment) (min_severity : Int) : Except String ModerationRecord :=
  match preRecord pf client c with
  | .error msg => .error msg
  | .ok r => applyGate r min_severity

/-- `process_comments` (lines 93-131): the loop body applied to each row in
order; an exception in any iteration aborts the whole batch. -/
def process_comments (pf : String → Bool) (client : String → Option JValue)
    (df : List Comment) (min_severity : Int) : Except String (List ModerationRecord) :=
  df.mapM (fun c => evaluateComment pf client c min_severity)

/-- The pandas row filter `analyzed_df["is_offensive"] == True` (line 135):
Python `==` against `True` holds for `True` and for numeric `1`. -/
def pyEqTrue : JValue → Bool
  | .b bo => bo
  | .i n => n = 1
  | _ => false

/-- Is the value a (non-bool) integer? -/
def isIntJ : JValue → Bool
  | .i _ => true
  | _ => false

/-- Severity key used by the report's sort; `generate_report` errors before
sorting whenever an offensive row has a non-integer severity, so the fallback
`0` is never reached from it. -/
def sevInt (r : ModerationRecord) : Int :=
  match r.severity with
  | .i n => n
  | _ => 0

/-- Insert into a list sorted by the boolean preorder `le`. -/
def insertLe {α : Type} (le : α → α → Bool) (a : α) : List α → List α
  | [] => [a]
  | x :: l => if le a x then a :: x :: l else x :: insertLe le a l

/-- Insertion sort by the boolean preorder `le`: the stable sort used to model
numpy's small-array ascending argsort. -/
def sortLe {α : Type} (le : α → α → Bool) : List α → List α
  | [] => []
  | a :: l => insertLe le a (sortLe le l)

/-- Ascending comparison on (original index, record) pairs by severity, ties
by original index: this total order is what a stable ascending sort by
severity computes on index-tagged rows. -/
def rowLe (a b : Nat × ModerationRecord) : Bool :=
  if sevInt a.2 < sevInt b.2 then true
  else if sevInt a.2 = sevInt b.2 then decide (a.1 ≤ b.1)
  else false

/-- The index-tagged top-5 selection of line 155,
`offensive.sort_values("severity", ascending=False).head(5)`: pandas keeps the
original index through the filter, argsorts ascending (stably, for the small
frames in scope) and reverses the indexer for `ascending=False`, then `head`
takes the first five. -/
def top5Enum (rs : List ModerationRecord) : List (Nat × ModerationRecord) :=
  (List.take 5 (List.reverse (sortLe rowLe
    (rs.enum.filter (fun p => pyEqTrue p.2.is_offensive)))))

/-- The computed content of `generate_report` (lines 133-161); printing is
I/O and omitted. -/
structure Report where
  total : Nat
  offensiveCount : Nat
  offensiveRatio : Rat
  top5 : List ModerationRecord

/-- The offensive-row filter `analyzed_df[analyzed_df["is_offensive"] == True]`
(line 135). -/
def offensiveRows (rs : List ModerationRecord) : List ModerationRecord :=
  rs.filter (fun r => pyEqTrue r.is_offensive)

/-- `generate_report` (lines 133-161) up to its computed values.  The ratio
`len(offensive)/len(analyzed_df)` (line 140) raises `ZeroDivisionError` on an
empty frame.  When offensive rows exist, the severity statistics and the
severity sort (lines 149-155) require integer severities: a non-numeric
severity column makes pandas raise there, modelled as a `TypeError`. -/
def generate_report (rs : List ModerationRecord) : Except String Report :=
  if rs.length = 0 then
    .error "ZeroDivisionError: division by zero"
  else if (offensiveRows rs).any (fun r => !isIntJ r.severity) then
    .error "TypeError: non-integer severity in statistics"
  else
    .ok { total := rs.length
          offensiveCount := (offensiveRows rs).length
          offensiveRatio := ((offensiveRows rs).length : Rat) / (rs.length : Rat)
          top5 := (top5Enum rs).map Prod.snd }

/-- The spec's own words for the top-5 selection (§4.5: "top 5 offensive
records by `severity` descending; ties broken by original input order (stable
sort)"), as a second definition to compare the code against: a stable sort by
severity descending — equivalently, descending severity with ties in
ascending original-index order — then the first five. -/
def rowLeSpec (a b : Nat × ModerationRecord) : Bool :=
  if sevInt b.2 < sevInt a.2 then true
  else if sevInt a.2 = sevInt b.2 then decide (a.1 ≤ b.1)
  else false

/-- Spec-worded top-5 selection (see `rowLeSpec`). -/
def top5Spec (rs : List ModerationRecord) : List ModerationRecord :=
  (List.take 5 (sortLe rowLeSpec
    (rs.enum.filter (fun p => pyEqTrue p.2.is_offensive)))).map Prod.snd

/-- Last value stored under key `k` in an association list (the value a Python
`dict` built or updated from these pairs holds at `k`). -/
def lastVal : List (String × JValue) → String → Option JValue
  | [], _ => none
  | kv :: t, k =>
    match lastVal t k with
    | some v => some v
    | none => if kv.1 = k then some kv.2 else none

/-- Did the computation return normally (no Python exception)? -/
def exceptOk {ε α : Type} : Except ε α → Bool
  | .ok _ => true
  | .error _ => false

/-- Values Python can order against an `int`: ints and bools. -/
def isNumJ : JValue → Bool
  | .i _ => true
  | .b _ => true
  | _ => false

/-- Is the value Python's `True`? -/
def isTrueB : JValue → Bool
  | .b bo => bo
  | _ => false

/-- Is the value Python's `None` (JSON `null`)? -/
def isNullJ : JValue → Bool
  | .null => true
  | _ => false

/-- Is the value an integer that is at least 1? -/
def sevGeOne : JValue → Bool
  | .i n => decide (1 ≤ n)
  | _ => false

/-- Keys naming the three identity fields a `ModerationRecord` copies from its
`Comment`. -/
def keyIsIdent (k : String) : Bool :=
  decide (k = "comment_id") || decide (k = "username") || decide (k = "comment_text")

/-- A parsed classifier value that cannot touch the identity fields: a JSON
object none of whose keys is an identity key. -/
def isObjNoIdKeys : JValue → Bool
  | .obj kvs => kvs.all (fun kv => !keyIsIdent kv.1)
  | _ => false

/-- A parsed classifier value that cannot spoof `comment_id`: a JSON object
without a `comment_id` key. -/
def isObjNoCid : JValue → Bool
  | .obj kvs => kvs.all (fun kv => !decide (kv.1 = "comment_id"))
  | _ => false

/-- A truthy classifier value the per-comment body survives: a JSON object
whose `severity` entry (the initial integer `0` if absent) is orderable
against `min_severity`. -/
def clientSevSafe : JValue → Bool
  | .obj kvs => isNumJ ((lastVal kvs "severity").getD (.i 0))
  | _ => false

/-- A classifier object that cannot break the §3 record invariant: if its
effective `is_offensive` is `True` then its effective `offense_type` is
non-null and its effective `severity` is an integer ≥ 1 (effective = the
value the updated record will hold, defaults being the initial fields). -/
def classInvOk : JValue → Bool
  | .obj kvs =>
    !isTrueB ((lastVal kvs "is_offensive").getD (.b false))
    || (!isNullJ ((lastVal kvs "offense_type").getD .null)
        && sevGeOne ((lastVal kvs "severity").getD (.i 0)))
  | _ => false

/-- Concrete comment used by witnesses and counterexamples. -/
def cmtA : Comment := ⟨.s "c1", .s "alice", "hello"⟩

/-- A remote response whose JSON is valid and complete but carries a
non-numeric `severity`. -/
def contentBadSev : String :=
  "\x7b\"is_offensive\": true, \"offense_type\": \"toxicity\", \"severity\": \"high\", \"explanation\": \"x\"\x7d"

/-- A remote response whose JSON is valid and complete but carries a null
`offense_type` together with `is_offensive = true`. -/
def contentNullType : String :=
  "\x7b\"is_offensive\": true, \"offense_type\": null, \"severity\": 5, \"explanation\": \"x\"\x7d"

/-- A remote response that only parses through the brace-extraction fallback
and smuggles in a `comment_id` key. -/
def contentSpoofId : String :=
  "x\x7b\"comment_id\": \"evil\", \"is_offensive\": true\x7d"

/-- A remote response that only parses through the brace-extraction fallback
and smuggles in a `comment_id` key (batch variant). -/
def contentSpoofId2 : String :=
  "x\x7b\"comment_id\": \"spoof\", \"severity\": 2\x7d"

/-- A response body that parses directly but misses every required field. -/
def contentMissDirect : String := "\x7b\"a\": 1\x7d"

/-- A response body whose direct parse fails and whose brace-extracted
substring parses to an object missing every required field. -/
def contentMissFallback : String := "x\x7b\"a\": 1\x7d"

/-- Two same-severity offensive records in input order `a` then `b`, to probe
the report's tie-breaking. -/
def recTieA : ModerationRecord :=
  ⟨.s "a", .s "u1", .s "t1", .b true, .s "toxicity", .i 5, .s "e1"⟩

/-- See `recTieA`. -/
def recTieB : ModerationRecord :=
  ⟨.s "b", .s "u2", .s "t2", .b true, .s "harassment", .i 5, .s "e2"⟩

/-- The report the code computes on `[recTieA, recTieB]`: both records
offensive, ratio 1, and the tied records reversed in the top-5. -/
def repTie : Report :=
  { total := 2
    offensiveCount := 2
    offensiveRatio := ((2 : Nat) : Rat) / ((2 : Nat) : Rat)
    top5 := [recTieB, recTieA] }

/-- Python int value of an orderable JSON value (`bool` is an `int`
subclass); unreachable default `0` otherwise. -/
def numVal : JValue → Int
  | .i n => n
  | .b bo => if bo then 1 else 0
  | _ => 0

theorem setField_comment_id (r : ModerationRecord) (k : String) (v : JValue) :
    (setField r k v).comment_id = if k = "comment_id" then v else r.comment_id := by
  unfold setField; split_ifs <;> simp_all

theorem setField_username (r : ModerationRecord) (k : String) (v : JValue) :
    (setField r k v).username = if k = "username" then v else r.username := by
  unfold setField; split_ifs <;> simp_all

theorem setField_comment_text (r : ModerationRecord) (k : String) (v : JValue) :
    (setField r k v).comment_text = if k = "comment_text" then v else r.comment_text := by
  unfold setField; split_ifs <;> simp_all

theorem setField_is_offensive (r : ModerationRecord) (k : String) (v : JValue) :
    (setField r k v).is_offensive = if k = "is_offensive" then v else r.is_offensive := by
  unfold setField; split_ifs <;> simp_all

theorem setField_offense_type (r : ModerationRecord) (k : String) (v : JValue) :
    (setField r k v).offense_type = if k = "offense_type" then v else r.offense_type := by
  unfold setField; split_ifs <;> simp_all

theorem setField_severity (r : ModerationRecord) (k : String) (v : JValue) :
    (setField r k v).severity = if k = "severity" then v else r.severity := by
  unfold setField; split_ifs <;> simp_all

theorem updObj_comment_id (kvs : List (String × JValue)) :
    ∀ r, (updObj r kvs).comment_id = (lastVal kvs "comment_id").getD r.comment_id := by
  induction kvs with
  | nil => intro r; rfl
  | cons kv t ih =>
    intro r
    show (updObj (setField r kv.1 kv.2) t).comment_id = _
    rw [ih, setField_comment_id]
    cases h : lastVal t "comment_id" with
    | none =>
      simp [lastVal, h]
      split_ifs <;> rfl
    | some v => simp [lastVal, h]

theorem updObj_username (kvs : List (String × JValue)) :
    ∀ r, (updObj r kvs).username = (lastVal kvs "username").getD r.username := by
  induction kvs with
  | nil => intro r; rfl
  | cons kv t ih =>
    intro r
    show (updObj (setField r kv.1 kv.2) t).username = _
    rw [ih, setField_username]
    cases h : lastVal t "username" with
    | none =>
      simp [lastVal, h]
      split_ifs <;> rfl
    | some v => simp [lastVal, h]

theorem updObj_comment_text (kvs : List (String × JValue)) :
    ∀ r, (updObj r kvs).comment_text = (lastVal kvs "comment_text").getD r.comment_text := by
  induction kvs with
  | nil => intro r; rfl
  | cons kv t ih =>
    intro r
    show (updObj (setField r kv.1 kv.2) t).comment_text = _
    rw [ih, setField_comment_text]
    cases h : lastVal t "comment_text" with
    | none =>
      simp [lastVal, h]
      split_ifs <;> rfl
    | some v => simp [lastVal, h]

theorem updObj_is_offensive (kvs : List (String × JValue)) :
    ∀ r, (updObj r kvs).is_offensive = (lastVal kvs "is_offensive").getD r.is_offensive := by
  induction kvs with
  | nil => intro r; rfl
  | cons kv t ih =>
    intro r
    show (updObj (setField r kv.1 kv.2) t).is_offensive = _
    rw [ih, setField_is_offensive]
    cases h : lastVal t "is_offensive" with
    | none =>
      simp [lastVal, h]
      split_ifs <;> rfl
    | some v => simp [lastVal, h]

theorem updObj_offense_type (kvs : List (String × JValue)) :
    ∀ r, (updObj r kvs).offense_type = (lastVal kvs "offense_type").getD r.offense_type := by
  induction kvs with
  | nil => intro r; rfl
  | cons kv t ih =>
    intro r
    show (updObj (setField r kv.1 kv.2) t).offense_type = _
    rw [ih, setField_offense_type]
    cases h : lastVal t "offense_type" with
    | none =>
      simp [lastVal, h]
      split_ifs <;> rfl
    | some v => simp [lastVal, h]

theorem updObj_severity (kvs : List (String × JValue)) :
    ∀ r, (updObj r kvs).severity = (lastVal kvs "severity").getD r.severity := by
  induction kvs with
  | nil => intro r; rfl
  | cons kv t ih =>
    intro r
    show (updObj (setField r kv.1 kv.2) t).severity = _
    rw [ih, setField_severity]
    cases h : lastVal t "severity" with
    | none =>
      simp [lastVal, h]
      split_ifs <;> rfl
    | some v => simp [lastVal, h]

theorem lastVal_eq_none {kvs : List (String × JValue)} {k : String}
    (h : kvs.all (fun kv => !decide (kv.1 = k)) = true) : lastVal kvs k = none := by
  induction kvs with
  | nil => rfl
  | cons kv t ih =>
    simp only [List.all_cons, Bool.and_eq_true, Bool.not_eq_true', decide_eq_false_iff_not] at h
    simp [lastVal, ih h.2, h.1]

theorem applyGate_eq (r : ModerationRecord) (m : Int) (h : isNumJ r.severity = true) :
    applyGate r m
      = .ok (if numVal r.severity < m then { r with is_offensive := .b false } else r) := by
  cases hs : r.severity with
  | null => simp [isNumJ, hs] at h
  | s str => simp [isNumJ, hs] at h
  | arr l => simp [isNumJ, hs] at h
  | obj kvs => simp [isNumJ, hs] at h
  | i n =>
    simp only [applyGate, pyLtInt, hs, numVal]
    by_cases hlt : n < m
    · simp [hlt]
    · simp [hlt]
  | b bo =>
    simp only [applyGate, pyLtInt, hs, numVal]
    by_cases hlt : (if bo then (1 : Int) else 0) < m
    · simp [hlt]
    · simp [hlt]

theorem applyGate_ok_isNum {r : ModerationRecord} {m : Int} {r' : ModerationRecord}
    (h : applyGate r m = .ok r') : isNumJ r.severity = true := by
  cases hs : r.severity <;> simp [applyGate, pyLtInt, hs] at h <;> rfl

theorem applyGate_fields {r : ModerationRecord} {m : Int} {r' : ModerationRecord}
    (h : applyGate r m = .ok r') :
    r'.severity = r.severity ∧ r'.explanation = r.explanation
    ∧ r'.comment_id = r.comment_id ∧ r'.username = r.username
    ∧ r'.comment_text = r.comment_text ∧ r'.offense_type = r.offense_type := by
  rw [applyGate_eq r m (applyGate_ok_isNum h)] at h
  split_ifs at h <;> cases h <;> simp

theorem applyGate_flag {r : ModerationRecord} {m : Int} {r' : ModerationRecord}
    (h : applyGate r m = .ok r') :
    r'.is_offensive = r.is_offensive ∨ r'.is_offensive = .b false := by
  rw [applyGate_eq r m (applyGate_ok_isNum h)] at h
  split_ifs at h <;> cases h <;> simp

theorem evaluate_clientFail (pf : String → Bool) (c : Comment) (m : Int) :
    evaluateComment pf (fun _ => none) c m
      = .ok (if pf c.comment_text then
          { comment_id := c.comment_id, username := c.username,
            comment_text := .s c.comment_text,
            is_offensive := if (5 : Int) < m then .b false else .b true,
            offense_type := .s "profanity", severity := .i 5,
            explanation := .s "Detected by local profanity filter" }
        else
          { comment_id := c.comment_id, username := c.username,
            comment_text := .s c.comment_text,
            is_offensive := .b false, offense_type := .null,
            severity := .i 0, explanation := .s "Analysis failed" }) := by
  by_cases hpf : pf c.comment_text
  · simp only [evaluateComment, preRecord, initRecord, hpf, if_true]
    rw [applyGate_eq]
    · by_cases hlt : (5 : Int) < m <;> simp [numVal, hlt]
    · rfl
  · simp [evaluateComment, preRecord, initRecord, hpf]
    rw [applyGate_eq]
    · by_cases hlt : (0 : Int) < m <;> simp [numVal, hlt]
    · rfl

/-- Claim C9: if the remote classifier client fails on every call, the batch
completes without raising and every record whose comment the lexical filter
did not flag has `is_offensive = false`, `severity = 0`, `offense_type =
null`, `explanation = "Analysis failed"` (flagged comments get the local
verdict, post-gate). -/
theorem c9_failure_absorption (pf : String → Bool) (df : List Comment) (m : Int) :
    process_comments pf (fun _ => none) df m
      = .ok (df.map (fun c =>
          if pf c.comment_text then
            { comment_id := c.comment_id, username := c.username,
              comment_text := .s c.comment_text,
              is_offensive := if (5 : Int) < m then .b false else .b true,
              offense_type := .s "profanity", severity := .i 5,
              explanation := .s "Detected by local profanity filter" }
          else
            { comment_id := c.comment_id, username := c.username,
              comment_text := .s c.comment_text,
              is_offensive := .b false, offense_type := .null,
              severity := .i 0, explanation := .s "Analysis failed" })) := by
  induction df with
  | nil => rfl
  | cons c t ih =>
    simp only [process_comments] at ih ⊢
    rw [List.mapM_cons, evaluate_clientFail, ih]
    rfl

/-- Claim C1 (code bug): on the empty record set, `generate_report` evaluates
`len(offensive)/len(analyzed_df)` with a zero denominator and raises
`ZeroDivisionError` instead of completing. -/
theorem c1_empty_record_set_divides_by_zero :
    generate_report [] = .error "ZeroDivisionError: division by zero" := rfl

/-- Claim C3 (amended): missing required fields produce a `Failure` on the
direct-parse path only; on the brace-extraction fallback path any
successfully re-parsed JSON value is returned as a success with no
required-field check. -/
theorem c3_required_field_check_direct_only :
    (∀ content v, json_loads content = some v → checkRequired v ≠ .ok true →
      call_llama_moderation content = none)
    ∧ (∀ content a e v, json_loads content = none →
      findChar content.data '{' = some a → rfindChar content.data '}' = some e →
      json_loads (String.mk (pySlice content.data a (e + 1))) = some v →
      call_llama_moderation content = some v) := by
  constructor
  · intro content v hparse hreq
    unfold call_llama_moderation
    rw [hparse]
    cases hc : checkRequired v with
    | error msg => simp [hc]
    | ok bo =>
      cases bo with
      | true => exact absurd hc hreq
      | false => simp [hc]
  · intro content a e v hparse hfind hrfind hslice
    simp only [call_llama_moderation, hparse, hfind, hrfind, hslice]

/-- Claim C3 counterexample: a response body whose direct parse fails and
whose brace-extracted substring parses to an object missing all four required
fields is returned as a success, not as a `Failure`. -/
theorem c3_fallback_missing_fields_not_failure :
    call_llama_moderation contentMissFallback = some (JValue.obj [("a", JValue.i 1)])
    ∧ checkRequired (JValue.obj [("a", JValue.i 1)]) = Except.ok false := ⟨rfl, rfl⟩

theorem c3_required_field_check_direct_only_witness :
    json_loads contentMissDirect = some (JValue.obj [("a", JValue.i 1)])
    ∧ call_llama_moderation contentMissDirect = none
    ∧ json_loads contentMissFallback = none
    ∧ call_llama_moderation contentMissFallback = some (JValue.obj [("a", JValue.i 1)]) :=
  ⟨rfl,
   c3_required_field_check_direct_only.1 contentMissDirect (JValue.obj [("a", JValue.i 1)]) rfl
     (by rw [show checkRequired (JValue.obj [("a", JValue.i 1)]) = Except.ok false from rfl]
         simp),
   rfl,
   c3_required_field_check_direct_only.2 contentMissFallback 1 8
     (JValue.obj [("a", JValue.i 1)]) rfl rfl rfl rfl⟩

/-- Claim C7: when the lexical filter flags the comment, the produced record
carries `offense_type = "profanity"`, `severity = 5` and `explanation =
"Detected by local profanity filter"` (the gate leaves all three unchanged),
and the remote client is never consulted: the outcome is the same for every
client. -/
theorem c7_local_filter_short_circuit (pf : String → Bool)
    (client client' : String → Option JValue) (c : Comment) (m : Int)
    (h : pf c.comment_text = true) :
    (evaluateComment pf client c m).map
        (fun r => (r.offense_type, r.severity, r.explanation))
      = .ok (.s "profanity", .i 5, .s "Detected by local profanity filter")
    ∧ evaluateComment pf client c m = evaluateComment pf client' c m := by
  constructor
  · simp only [evaluateComment, preRecord, initRecord, h, if_true]
    rw [applyGate_eq]
    · by_cases hlt : (5 : Int) < m <;> simp [numVal, hlt, Except.map]
    · rfl
  · simp [evaluateComment, preRecord, h]

theorem c7_local_filter_short_circuit_witness :
    (fun _ => true : String → Bool) cmtA.comment_text = true
    ∧ ((evaluateComment (fun _ => true) (fun _ => none) cmtA 1).map
          (fun r => (r.offense_type, r.severity, r.explanation))
        = .ok (.s "profanity", .i 5, .s "Detected by local profanity filter")
      ∧ evaluateComment (fun _ => true) (fun _ => none) cmtA 1
        = evaluateComment (fun _ => true)
            (fun _ => some (.obj [("comment_id", .s "evil")])) cmtA 1) :=
  ⟨rfl, c7_local_filter_short_circuit (fun _ => true) (fun _ => none)
     (fun _ => some (.obj [("comment_id", .s "evil")])) cmtA 1 rfl⟩

theorem preRecord_cases (pf : String → Bool) (client : String → Option JValue) (c : Comment) :
    (pf c.comment_text = true
      ∧ preRecord pf client c = .ok { initRecord c with
          is_offensive := .b true, offense_type := .s "profanity",
          severity := .i 5, explanation := .s "Detected by local profanity filter" })
    ∨ (pf c.comment_text = false
      ∧ preRecord pf client c = .ok { initRecord c with explanation := .s "Analysis failed" })
    ∨ (pf c.comment_text = false
      ∧ ∃ v, client c.comment_text = some v ∧ pyTruthy v = true
        ∧ preRecord pf client c = pyUpdate (initRecord c) v) := by
  by_cases hpf : pf c.comment_text
  · exact .inl ⟨hpf, by simp [preRecord, hpf]⟩
  · cases hcv : client c.comment_text with
    | none =>
      exact .inr (.inl ⟨by simpa using hpf, by simp [preRecord, hpf, hcv]⟩)
    | some v =>
      by_cases htr : pyTruthy v
      · exact .inr (.inr ⟨by simpa using hpf, v, rfl, htr,
          by simp [preRecord, hpf, hcv, htr]⟩)
      · exact .inr (.inl ⟨by simpa using hpf,
          by simp [preRecord, hpf, hcv, htr]⟩)

theorem updObj_keepIds {kvs : List (String × JValue)}
    (h : kvs.all (fun kv => !keyIsIdent kv.1) = true) (r : ModerationRecord) :
    (updObj r kvs).comment_id = r.comment_id
    ∧ (updObj r kvs).username = r.username
    ∧ (updObj r kvs).comment_text = r.comment_text := by
  have hparts : ∀ k, (k = "comment_id" ∨ k = "username" ∨ k = "comment_text") →
      kvs.all (fun kv => !decide (kv.1 = k)) = true := by
    intro k hk
    rw [List.all_eq_true] at h ⊢
    intro x hx
    have hh := h x hx
    simp only [keyIsIdent, Bool.not_eq_true', Bool.or_eq_false_iff,
      decide_eq_false_iff_not] at hh
    rcases hk with hk | hk | hk <;> subst hk <;>
      simp [hh.1.1, hh.1.2, hh.2]
  rw [updObj_comment_id, updObj_username, updObj_comment_text,
    lastVal_eq_none (hparts _ (.inl rfl)),
    lastVal_eq_none (hparts _ (.inr (.inl rfl))),
    lastVal_eq_none (hparts _ (.inr (.inr rfl)))]
  exact ⟨rfl, rfl, rfl⟩

theorem evaluateComment_gate {pf : String → Bool} {client : String → Option JValue}
    {c : Comment} {m : Int} {r : ModerationRecord}
    (h : evaluateComment pf client c m = .ok r) :
    ∃ p, preRecord pf client c = .ok p ∧ applyGate p m = .ok r := by
  unfold evaluateComment at h
  cases hp : preRecord pf client c with
  | error msg => rw [hp] at h; exact absurd h (by simp)
  | ok p => exact ⟨p, rfl, by rw [hp] at h; exact h⟩

theorem evaluateComment_of_pre {pf : String → Bool} {client : String → Option JValue}
    {c : Comment} {m : Int} {p : ModerationRecord}
    (hp : preRecord pf client c = .ok p) :
    evaluateComment pf client c m = applyGate p m := by
  unfold evaluateComment
  rw [hp]

theorem applyGate_keeps_id {p : ModerationRecord} {m : Int}
    (h : isNumJ p.severity = true) :
    ∃ r, applyGate p m = .ok r ∧ r.comment_id = p.comment_id := by
  rw [applyGate_eq p m h]
  refine ⟨_, rfl, ?_⟩
  split_ifs <;> rfl

/-- Claim C2 (amended): the update overwrites every record field whose key the
parsed remote object contains, identity fields included; the identity fields
(`comment_id`, `username`, `comment_text`) equal the input comment's exactly
when every successful truthy classifier value is an object carrying none of
the identity keys (as a schema-conforming `ClassificationResult` does). -/
theorem c2_identity_fields_preserved (pf : String → Bool) (client : String → Option JValue)
    (c : Comment) (m : Int) (r : ModerationRecord)
    (hcl : ∀ v, client c.comment_text = some v → pyTruthy v = true → isObjNoIdKeys v = true)
    (h : evaluateComment pf client c m = .ok r) :
    r.comment_id = c.comment_id ∧ r.username = c.username
    ∧ r.comment_text = .s c.comment_text := by
  obtain ⟨p, hp, hg⟩ := evaluateComment_gate h
  obtain ⟨-, -, hid, hun, htx, -⟩ := applyGate_fields hg
  rw [hid, hun, htx]
  rcases preRecord_cases pf client c with ⟨hpf, hq⟩ | ⟨hpf, hq⟩ | ⟨hpf, v, hcv, htr, hq⟩
  · rw [hp] at hq
    injection hq with hq
    subst hq
    exact ⟨rfl, rfl, rfl⟩
  · rw [hp] at hq
    injection hq with hq
    subst hq
    exact ⟨rfl, rfl, rfl⟩
  · rw [hp] at hq
    have hno := hcl v hcv htr
    cases v with
    | obj kvs =>
      simp only [pyUpdate] at hq
      injection hq with hq
      subst hq
      have hkeep := updObj_keepIds (by simpa [isObjNoIdKeys] using hno) (initRecord c)
      rw [hkeep.1, hkeep.2.1, hkeep.2.2]
      exact ⟨rfl, rfl, rfl⟩
    | null => simp [isObjNoIdKeys] at hno
    | b bo => simp [isObjNoIdKeys] at hno
    | i n => simp [isObjNoIdKeys] at hno
    | s str => simp [isObjNoIdKeys] at hno
    | arr l => simp [isObjNoIdKeys] at hno

/-- Claim C2 counterexample: a remote response parsed through the fallback may
carry a `comment_id` key, and `result.update` then overwrites the record's
`comment_id`, so the produced record's identity no longer matches the input
comment's. -/
theorem c2_identity_overwritten :
    (evaluateComment (fun _ => false) (fun _ => call_llama_moderation contentSpoofId)
        cmtA 1).map ModerationRecord.comment_id = .ok (.s "evil")
    ∧ cmtA.comment_id = .s "c1"
    ∧ JValue.s "evil" ≠ JValue.s "c1" := by
  refine ⟨rfl, rfl, ?_⟩
  intro hcontra
  injection hcontra with hs
  exact absurd hs (by decide)

theorem c2_identity_fields_preserved_witness :
    evaluateComment (fun _ => false) (fun _ => some (.obj [("severity", .i 7)])) cmtA 1
      = .ok { comment_id := .s "c1", username := .s "alice", comment_text := .s "hello",
              is_offensive := .b false, offense_type := .null, severity := .i 7,
              explanation := .s "Pending analysis" }
    ∧ ((JValue.s "c1") = cmtA.comment_id ∧ (JValue.s "alice") = cmtA.username
      ∧ (JValue.s "hello") = .s cmtA.comment_text) :=
  ⟨rfl,
   c2_identity_fields_preserved (fun _ => false) (fun _ => some (.obj [("severity", .i 7)]))
     cmtA 1
     { comment_id := .s "c1", username := .s "alice", comment_text := .s "hello",
       is_offensive := .b false, offense_type := .null, severity := .i 7,
       explanation := .s "Pending analysis" }
     (by intro v hv htr; injection hv with h2; subst h2; rfl) rfl⟩

/-- Claim C4 (amended): the per-comment body raises no exception provided
every successful truthy classifier value is a JSON object whose effective
`severity` is orderable against `min_severity` (an int or bool); failures,
falsy values and locally-flagged comments never raise. -/
theorem c4_no_raise_for_safe_outcomes (pf : String → Bool) (client : String → Option JValue)
    (c : Comment) (m : Int)
    (hcl : ∀ v, client c.comment_text = some v → pyTruthy v = true → clientSevSafe v = true) :
    exceptOk (evaluateComment pf client c m) = true := by
  rcases preRecord_cases pf client c with ⟨hpf, hq⟩ | ⟨hpf, hq⟩ | ⟨hpf, v, hcv, htr, hq⟩
  · rw [evaluateComment_of_pre hq, applyGate_eq]
    · rfl
    · rfl
  · rw [evaluateComment_of_pre hq, applyGate_eq]
    · rfl
    · rfl
  · have hsafe := hcl v hcv htr
    cases v with
    | obj kvs =>
      have hq' : preRecord pf client c = .ok (updObj (initRecord c) kvs) := by
        rw [hq]; rfl
      rw [evaluateComment_of_pre hq']
      rw [applyGate_eq]
      · rfl
      · rw [updObj_severity]
        simpa [clientSevSafe, initRecord] using hsafe
    | null => simp [clientSevSafe] at hsafe
    | b bo => simp [clientSevSafe] at hsafe
    | i n => simp [clientSevSafe] at hsafe
    | s str => simp [clientSevSafe] at hsafe
    | arr l => simp [clientSevSafe] at hsafe

/-- Claim C4 counterexample: a complete, directly-parsed classification whose
`severity` is a string makes line 126's comparison raise a `TypeError`, so the
per-comment body propagates an exception. -/
theorem c4_nonnumeric_severity_raises :
    evaluateComment (fun _ => false) (fun _ => call_llama_moderation contentBadSev) cmtA 1
      = .error "TypeError: unorderable types in severity comparison" := rfl

theorem c4_no_raise_for_safe_outcomes_witness :
    exceptOk (evaluateComment (fun _ => false)
        (fun _ => some (.obj [("severity", .i 9)])) cmtA 1) = true :=
  c4_no_raise_for_safe_outcomes (fun _ => false) (fun _ => some (.obj [("severity", .i 9)]))
    cmtA 1 (by intro v hv htr; injection hv with h2; subst h2; rfl)

/-- Claim C5 (amended): the §3 invariant — `is_offensive = true` implies a
non-null `offense_type` and an integer `severity ≥ 1` — holds for
locally-flagged and remote-failed records unconditionally, and for
remote-classified records exactly when the classification object itself
satisfies it (the gate and the other paths preserve the invariant, the update
does not establish it). -/
theorem c5_offensive_invariant (pf : String → Bool) (client : String → Option JValue)
    (c : Comment) (m : Int) (r : ModerationRecord)
    (hcl : ∀ v, client c.comment_text = some v → pyTruthy v = true → classInvOk v = true)
    (h : evaluateComment pf client c m = .ok r)
    (hflag : r.is_offensive = .b true) :
    isNullJ r.offense_type = false ∧ sevGeOne r.severity = true := by
  obtain ⟨p, hp, hg⟩ := evaluateComment_gate h
  obtain ⟨hsev, -, -, -, -, hty⟩ := applyGate_fields hg
  have hpflag : p.is_offensive = .b true := by
    rcases applyGate_flag hg with heq | heq
    · rw [← heq]; exact hflag
    · rw [heq] at hflag
      injection hflag with hb
      exact absurd hb (by decide)
  rw [hsev, hty]
  rcases preRecord_cases pf client c with ⟨hpf, hq⟩ | ⟨hpf, hq⟩ | ⟨hpf, v, hcv, htr, hq⟩
  · rw [hp] at hq
    injection hq with hq
    subst hq
    exact ⟨rfl, rfl⟩
  · rw [hp] at hq
    injection hq with hq
    subst hq
    simp [initRecord] at hpflag
  · rw [hp] at hq
    have hinv := hcl v hcv htr
    cases v with
    | obj kvs =>
      simp only [pyUpdate] at hq
      injection hq with hq
      subst hq
      rw [updObj_offense_type, updObj_severity]
      rw [updObj_is_offensive] at hpflag
      simp only [classInvOk] at hinv
      have hislast : isTrueB ((lastVal kvs "is_offensive").getD (.b false)) = true := by
        have h0 : (initRecord c).is_offensive = .b false := rfl
        rw [h0] at hpflag
        rw [hpflag]
        rfl
      rw [hislast] at hinv
      simp only [Bool.not_true, Bool.false_or, Bool.and_eq_true,
        Bool.not_eq_true'] at hinv
      have h1 : (initRecord c).offense_type = JValue.null := rfl
      have h2 : (initRecord c).severity = JValue.i 0 := rfl
      rw [h1, h2]
      exact hinv
    | null => simp [classInvOk] at hinv
    | b bo => simp [classInvOk] at hinv
    | i n => simp [classInvOk] at hinv
    | s str => simp [classInvOk] at hinv
    | arr l => simp [classInvOk] at hinv

/-- Claim C5 counterexample: a directly-parsed classification with all four
required fields present but `offense_type = null` yields a final record with
`is_offensive = true` and a null `offense_type`, violating the invariant. -/
theorem c5_null_offense_type_accepted :
    (evaluateComment (fun _ => false) (fun _ => call_llama_moderation contentNullType)
        cmtA 1).map (fun r => (r.is_offensive, r.offense_type))
      = .ok (.b true, .null) := rfl

theorem c5_offensive_invariant_witness :
    isNullJ (JValue.s "hate_speech") = false ∧ sevGeOne (JValue.i 3) = true :=
  c5_offensive_invariant (fun _ => false)
    (fun _ => some (.obj [("is_offensive", .b true), ("offense_type", .s "hate_speech"),
      ("severity", .i 3), ("explanation", .s "w")]))
    cmtA 2
    { comment_id := .s "c1", username := .s "alice", comment_text := .s "hello",
      is_offensive := .b true, offense_type := .s "hate_speech", severity := .i 3,
      explanation := .s "w" }
    (by intro v hv htr; injection hv with h2; subst h2; rfl) rfl rfl

theorem evaluate_ok_id (pf : String → Bool) (client : String → Option JValue)
    (c : Comment) (m : Int)
    (hcl : ∀ v, client c.comment_text = some v → pyTruthy v = true →
      (clientSevSafe v && isObjNoCid v) = true) :
    ∃ r, evaluateComment pf client c m = .ok r ∧ r.comment_id = c.comment_id := by
  rcases preRecord_cases pf client c with ⟨hpf, hq⟩ | ⟨hpf, hq⟩ | ⟨hpf, v, hcv, htr, hq⟩
  · obtain ⟨r, hr, hid⟩ := applyGate_keeps_id (m := m)
      (p := { initRecord c with
        is_offensive := .b true, offense_type := .s "profanity",
        severity := .i 5, explanation := .s "Detected by local profanity filter" }) rfl
    exact ⟨r, by rw [evaluateComment_of_pre hq]; exact hr, by rw [hid]; rfl⟩
  · obtain ⟨r, hr, hid⟩ := applyGate_keeps_id (m := m)
      (p := { initRecord c with explanation := .s "Analysis failed" }) rfl
    exact ⟨r, by rw [evaluateComment_of_pre hq]; exact hr, by rw [hid]; rfl⟩
  · have hsafe := hcl v hcv htr
    cases v with
    | obj kvs =>
      rw [Bool.and_eq_true] at hsafe
      have hq' : preRecord pf client c = .ok (updObj (initRecord c) kvs) := by
        rw [hq]; rfl
      have hnum : isNumJ (updObj (initRecord c) kvs).severity = true := by
        rw [updObj_severity]
        simpa [clientSevSafe, initRecord] using hsafe.1
      obtain ⟨r, hr, hid⟩ := applyGate_keeps_id (m := m) hnum
      refine ⟨r, by rw [evaluateComment_of_pre hq']; exact hr, ?_⟩
      rw [hid, updObj_comment_id,
        lastVal_eq_none (by simpa [isObjNoCid] using hsafe.2)]
      rfl
    | null => simp [clientSevSafe] at hsafe
    | b bo => simp [clientSevSafe] at hsafe
    | i n => simp [clientSevSafe] at hsafe
    | s str => simp [clientSevSafe] at hsafe
    | arr l => simp [clientSevSafe] at hsafe

/-- Claim C6 (amended): whenever every successful truthy classifier value is
an object with an orderable `severity` and no `comment_id` key (as a
schema-conforming `ClassificationResult` is), the batch completes and the
produced record set has the input's length with, at every index, the input
comment's `comment_id`. -/
theorem c6_order_and_ids (pf : String → Bool) (client : String → Option JValue)
    (df : List Comment) (m : Int)
    (hcl : ∀ t v, client t = some v → pyTruthy v = true →
      (clientSevSafe v && isObjNoCid v) = true) :
    (process_comments pf client df m).map (fun rs => rs.map ModerationRecord.comment_id)
      = .ok (df.map Comment.comment_id) := by
  induction df with
  | nil => rfl
  | cons c t ih =>
    obtain ⟨r, hr, hid⟩ := evaluate_ok_id pf client c m (fun v hv htr => hcl _ v hv htr)
    simp only [process_comments] at ih ⊢
    rw [List.mapM_cons, hr]
    cases hmt : t.mapM (fun c => evaluateComment pf client c m) with
    | error msg =>
      rw [hmt] at ih
      simp [Except.map] at ih
    | ok rs =>
      rw [hmt] at ih
      simp only [Except.map, List.map_cons] at ih ⊢
      injection ih with ih
      simp only [bind, Except.bind, pure, Except.pure, Except.map, List.map_cons]
      rw [ih, hid]

/-- Claim C6 counterexample: a remote response carrying a `comment_id` key
makes the produced record's `comment_id` differ from the input comment's at
the same index (lengths still agree). -/
theorem c6_comment_id_spoofed :
    (process_comments (fun _ => false) (fun _ => call_llama_moderation contentSpoofId2)
        [cmtA] 1).map (fun rs => rs.map ModerationRecord.comment_id) = .ok [.s "spoof"]
    ∧ [cmtA].map Comment.comment_id = [.s "c1"]
    ∧ JValue.s "spoof" ≠ JValue.s "c1" := by
  refine ⟨rfl, rfl, ?_⟩
  intro hcontra
  injection hcontra with hs
  exact absurd hs (by decide)

theorem c6_order_and_ids_witness :
    (process_comments (fun _ => false) (fun _ => none) [cmtA] 1).map
        (fun rs => rs.map ModerationRecord.comment_id) = .ok [JValue.s "c1"] :=
  c6_order_and_ids (fun _ => false) (fun _ => none) [cmtA] 1
    (fun _ _ hv _ => Option.noConfusion hv)

/-- Claim C8: for a fixed comment and classification outcome the final
`is_offensive` flag is antitone in `min_severity`; raising `min_severity`
strictly above the record's severity forces the flag to `false`; the gate
leaves severity and explanation unchanged. -/
theorem c8_threshold_monotonic (pf : String → Bool) (client : String → Option JValue)
    (c : Comment) (m m' : Int) (r r' : ModerationRecord)
    (h : evaluateComment pf client c m = .ok r)
    (h' : evaluateComment pf client c m' = .ok r') :
    (m ≤ m' → r.is_offensive ≠ .b true → r'.is_offensive ≠ .b true)
    ∧ r'.severity = r.severity ∧ r'.explanation = r.explanation
    ∧ (pyLtInt r.severity m' = .ok true → r'.is_offensive = .b false) := by
  obtain ⟨p, hp, hg⟩ := evaluateComment_gate h
  obtain ⟨p2, hp2, hg2⟩ := evaluateComment_gate h'
  rw [hp] at hp2
  injection hp2 with hp2
  subst hp2
  have hnum := applyGate_ok_isNum hg
  rw [applyGate_eq _ _ hnum] at hg hg2
  injection hg with hg
  injection hg2 with hg2
  have hsev : r.severity = p.severity := by rw [← hg]; split_ifs <;> rfl
  refine ⟨?_, ?_, ?_, ?_⟩
  · intro hmm hnot hcon
    by_cases hlt' : numVal p.severity < m'
    · rw [← hg2] at hcon
      simp [hlt'] at hcon
    · have hltm : ¬ numVal p.severity < m := fun hl => hlt' (lt_of_lt_of_le hl hmm)
      rw [← hg] at hnot
      rw [← hg2] at hcon
      simp [hltm] at hnot
      simp [hlt'] at hcon
      exact hnot hcon
  · rw [← hg, ← hg2]; split_ifs <;> rfl
  · rw [← hg, ← hg2]; split_ifs <;> rfl
  · intro hlt
    rw [hsev] at hlt
    have hnlt : numVal p.severity < m' := by
      cases hsv : p.severity <;> rw [hsv] at hlt <;> simp [pyLtInt] at hlt <;>
        simp [numVal, hlt]
    rw [← hg2]
    simp [hnlt]

theorem c8_threshold_monotonic_witness :
    ((1 : Int) ≤ 4 → (JValue.b true) ≠ .b true → (JValue.b false) ≠ .b true)
    ∧ (JValue.i 3) = (JValue.i 3) ∧ (JValue.s "w2") = (JValue.s "w2")
    ∧ (pyLtInt (.i 3) 4 = .ok true → (JValue.b false) = .b false) :=
  c8_threshold_monotonic (fun _ => false)
    (fun _ => some (.obj [("is_offensive", .b true), ("offense_type", .s "toxicity"),
      ("severity", .i 3), ("explanation", .s "w2")]))
    cmtA 1 4
    { comment_id := .s "c1", username := .s "alice", comment_text := .s "hello",
      is_offensive := .b true, offense_type := .s "toxicity", severity := .i 3,
      explanation := .s "w2" }
    { comment_id := .s "c1", username := .s "alice", comment_text := .s "hello",
      is_offensive := .b false, offense_type := .s "toxicity", severity := .i 3,
      explanation := .s "w2" }
    rfl rfl

theorem length_insertLe {α : Type} (le : α → α → Bool) (a : α) (l : List α) :
    (insertLe le a l).length = l.length + 1 := by
  induction l with
  | nil => rfl
  | cons x t ih =>
    simp only [insertLe]
    split_ifs <;> simp [ih]

theorem length_sortLe {α : Type} (le : α → α → Bool) (l : List α) :
    (sortLe le l).length = l.length := by
  induction l with
  | nil => rfl
  | cons x t ih => simp [sortLe, length_insertLe, ih]

theorem mem_insertLe {α : Type} (le : α → α → Bool) (a : α) (l : List α) :
    ∀ y ∈ insertLe le a l, y = a ∨ y ∈ l := by
  induction l with
  | nil =>
    intro y hy
    simp [insertLe] at hy
    exact .inl hy
  | cons x t ih =>
    intro y hy
    simp only [insertLe] at hy
    split_ifs at hy with hax
    · simp only [List.mem_cons] at hy ⊢
      tauto
    · rcases List.mem_cons.mp hy with rfl | hy2
      · exact .inr (List.mem_cons_self _ _)
      · rcases ih y hy2 with hc | hc
        · exact .inl hc
        · exact .inr (List.mem_cons_of_mem _ hc)

theorem pairwise_insertLe {α : Type} (le : α → α → Bool)
    (htot : ∀ a b, le a b = false → le b a = true)
    (htrans : ∀ a b c, le a b = true → le b c = true → le a c = true)
    (a : α) (l : List α) (hl : l.Pairwise (fun x y => le x y = true)) :
    (insertLe le a l).Pairwise (fun x y => le x y = true) := by
  induction l with
  | nil => simp [insertLe]
  | cons x t ih =>
    rw [List.pairwise_cons] at hl
    simp only [insertLe]
    split_ifs with hax
    · rw [List.pairwise_cons]
      refine ⟨?_, ?_⟩
      · intro y hy
        rcases List.mem_cons.mp hy with rfl | hy2
        · exact hax
        · exact htrans a x y hax (hl.1 y hy2)
      · rw [List.pairwise_cons]
        exact hl
    · have hxa : le x a = true := htot a x (by simpa using hax)
      rw [List.pairwise_cons]
      refine ⟨?_, ih hl.2⟩
      intro y hy
      rcases mem_insertLe le a t y hy with rfl | hy2
      · exact hxa
      · exact hl.1 y hy2

theorem pairwise_sortLe {α : Type} (le : α → α → Bool)
    (htot : ∀ a b, le a b = false → le b a = true)
    (htrans : ∀ a b c, le a b = true → le b c = true → le a c = true)
    (l : List α) :
    (sortLe le l).Pairwise (fun x y => le x y = true) := by
  induction l with
  | nil => simp [sortLe]
  | cons x t ih => exact pairwise_insertLe le htot htrans x _ ih

theorem rowLe_iff (a b : Nat × ModerationRecord) :
    rowLe a b = true ↔ (sevInt a.2 < sevInt b.2
      ∨ (sevInt a.2 = sevInt b.2 ∧ a.1 ≤ b.1)) := by
  unfold rowLe
  by_cases h1 : sevInt a.2 < sevInt b.2
  · simp [h1]
  · by_cases h2 : sevInt a.2 = sevInt b.2
    · simp [h1, h2]
    · simp [h1, h2]

theorem rowLe_total (a b : Nat × ModerationRecord) (h : rowLe a b = false) :
    rowLe b a = true := by
  have h' : ¬ (rowLe a b = true) := by simp [h]
  rw [rowLe_iff] at h'
  rw [rowLe_iff]
  omega

theorem rowLe_trans (a b c : Nat × ModerationRecord)
    (h1 : rowLe a b = true) (h2 : rowLe b c = true) : rowLe a c = true := by
  rw [rowLe_iff] at h1 h2 ⊢
  omega

theorem rowLe_dest (a b : Nat × ModerationRecord) (h : rowLe b a = true) :
    sevInt b.2 < sevInt a.2 ∨ (sevInt a.2 = sevInt b.2 ∧ b.1 ≤ a.1) := by
  rw [rowLe_iff] at h
  omega

theorem pairwise_top5Enum (rs : List ModerationRecord) :
    (top5Enum rs).Pairwise (fun a b => sevInt b.2 < sevInt a.2
      ∨ (sevInt a.2 = sevInt b.2 ∧ b.1 ≤ a.1)) := by
  have hs := pairwise_sortLe rowLe rowLe_total rowLe_trans
    (rs.enum.filter (fun p => pyEqTrue p.2.is_offensive))
  have hrev : (sortLe rowLe
      (rs.enum.filter (fun p => pyEqTrue p.2.is_offensive))).reverse.Pairwise
      (fun a b => rowLe b a = true) :=
    List.pairwise_reverse.mpr hs
  exact (List.Pairwise.sublist (List.take_sublist 5 _) hrev).imp
    (fun hab => rowLe_dest _ _ hab)

theorem length_filter_enumFrom (n : Nat) (rs : List ModerationRecord) :
    ((List.enumFrom n rs).filter (fun p => pyEqTrue p.2.is_offensive)).length
      = (rs.filter (fun r => pyEqTrue r.is_offensive)).length := by
  induction rs generalizing n with
  | nil => rfl
  | cons r t ih =>
    simp only [List.enumFrom, List.filter]
    by_cases hpe : pyEqTrue r.is_offensive <;> simp [hpe, ih]

theorem length_top5Enum (rs : List ModerationRecord) :
    (top5Enum rs).length
      = min 5 ((rs.filter (fun r => pyEqTrue r.is_offensive)).length) := by
  unfold top5Enum
  rw [List.length_take, List.length_reverse, length_sortLe]
  congr 1
  exact length_filter_enumFrom 0 rs

/-- Claim C10 (amended): the report's top-5 selection lists offensive records
in descending severity order and takes at most five, but equal-severity
records appear in reversed (non-increasing index) original order, not input
order: `sort_values(ascending=False)` reverses a stable ascending sort. -/
theorem c10_descending_ties_reversed (rs : List ModerationRecord) (rep : Report)
    (h : generate_report rs = .ok rep) :
    rep.top5 = (top5Enum rs).map Prod.snd
    ∧ (top5Enum rs).Pairwise (fun a b => sevInt b.2 < sevInt a.2
        ∨ (sevInt a.2 = sevInt b.2 ∧ b.1 ≤ a.1))
    ∧ rep.top5.length = min 5 rep.offensiveCount := by
  have hrep : rep.top5 = (top5Enum rs).map Prod.snd
      ∧ rep.offensiveCount = (rs.filter (fun r => pyEqTrue r.is_offensive)).length := by
    unfold generate_report at h
    by_cases h1 : rs.length = 0
    · rw [if_pos h1] at h
      exact absurd h (by simp)
    · rw [if_neg h1] at h
      by_cases h2 : ((offensiveRows rs).any (fun r => !isIntJ r.severity)) = true
      · rw [if_pos h2] at h
        exact absurd h (by simp)
      · rw [if_neg h2] at h
        injection h with h
        rw [← h]
        exact ⟨rfl, rfl⟩
  refine ⟨hrep.1, pairwise_top5Enum rs, ?_⟩
  rw [hrep.1, hrep.2, List.length_map, length_top5Enum]

/-- Claim C10 counterexample: two offensive records with equal severity, in
input order `a` then `b`, come out of the code's top-5 selection as `b` then
`a` — the reverse of the input order the spec's stable sort prescribes
(`top5Spec` is the selection worded as the spec has it). -/
theorem c10_tie_order_reversed :
    (generate_report [recTieA, recTieB]).map
        (fun rep => rep.top5.map ModerationRecord.comment_id)
      = .ok [.s "b", .s "a"]
    ∧ (top5Spec [recTieA, recTieB]).map ModerationRecord.comment_id
      = [.s "a", .s "b"]
    ∧ ([JValue.s "b", JValue.s "a"] : List JValue) ≠ [JValue.s "a", JValue.s "b"] := by
  refine ⟨rfl, rfl, ?_⟩
  intro hcontra
  injection hcontra with h1 h2
  injection h1 with hs
  exact absurd hs (by decide)

theorem c10_descending_ties_reversed_witness :
    repTie.top5 = (top5Enum [recTieA, recTieB]).map Prod.snd
    ∧ (top5Enum [recTieA, recTieB]).Pairwise (fun a b => sevInt b.2 < sevInt a.2
        ∨ (sevInt a.2 = sevInt b.2 ∧ b.1 ≤ a.1))
    ∧ repTie.top5.length = min 5 repTie.offensiveCount :=
  c10_descending_ties_reversed [recTieA, recTieB] repTie rfl
